import Mathlib

/-!
Verification of the housing-affordability data pipeline (`data_utils.py`).

The pipeline is embedded shallowly:

* A pandas float64 cell is modelled by `PFloat`: a rational number, NaN, or a
  signed infinity.  Arithmetic on `PFloat` follows IEEE-754 semantics as numpy
  implements them (NaN is absorbing; division of a nonzero finite number by
  zero yields a signed infinity, `0/0` yields NaN; comparisons against NaN are
  false).  Signed zero is not modelled: the pipeline never divides by the
  result of a prior subtraction, so `-0.0` cannot arise.
* Affordability bands are an inductive `Band`; `Band.name` holds the exact
  strings the source uses.
* A dataframe is a list of typed rows.  For the raw table, column *presence*
  is tracked by boolean flags on the table (pandas raises `KeyError` when an
  absent column is accessed), and the raw `date` cell is either a parseable
  calendar date or unparseable (`pd.to_datetime` raises on the latter).
* `groupby` with its default `sort=True` is modelled by deduplicating the key
  column (first occurrence order) and then sorting the distinct keys; since
  keys are distinct, any correct sort produces the pandas order.
* Fallible functions return `Except`: `add_derived_columns` can raise
  `KeyError`/parse errors, `composite_series` can raise the `IndexError`
  produced by `.iloc[0]` on an empty selection.
-/

namespace HouseTS

/-- Model of a pandas float64 cell: a rational value, NaN, or ±infinity. -/
inductive PFloat where
  | num (q : ℚ)
  | nan
  | inf
  | ninf
deriving DecidableEq, Repr

/-- Model of `pd.isna` on a float cell: true exactly on NaN. -/
def PFloat.isna : PFloat → Bool
  | .nan => true
  | _ => false

/-- IEEE-754 addition on `PFloat` cells. -/
def padd : PFloat → PFloat → PFloat
  | .nan, _ => .nan
  | .num _, .nan => .nan
  | .inf, .nan => .nan
  | .ninf, .nan => .nan
  | .num a, .num b => .num (a + b)
  | .num _, .inf => .inf
  | .num _, .ninf => .ninf
  | .inf, .num _ => .inf
  | .inf, .inf => .inf
  | .inf, .ninf => .nan
  | .ninf, .num _ => .ninf
  | .ninf, .inf => .nan
  | .ninf, .ninf => .ninf

/-- IEEE-754 multiplication on `PFloat` cells. -/
def pmul : PFloat → PFloat → PFloat
  | .nan, _ => .nan
  | .num _, .nan => .nan
  | .inf, .nan => .nan
  | .ninf, .nan => .nan
  | .num a, .num b => .num (a * b)
  | .num a, .inf => if a = 0 then .nan else if 0 < a then .inf else .ninf
  | .num a, .ninf => if a = 0 then .nan else if 0 < a then .ninf else .inf
  | .inf, .num b => if b = 0 then .nan else if 0 < b then .inf else .ninf
  | .ninf, .num b => if b = 0 then .nan else if 0 < b then .ninf else .inf
  | .inf, .inf => .inf
  | .inf, .ninf => .ninf
  | .ninf, .inf => .ninf
  | .ninf, .ninf => .inf

/-- IEEE-754 division on `PFloat` cells (numpy semantics: `x/0` is a signed
infinity for `x ≠ 0`, `0/0` is NaN; finite/±inf is 0). -/
def pdiv : PFloat → PFloat → PFloat
  | .nan, _ => .nan
  | .num _, .nan => .nan
  | .inf, .nan => .nan
  | .ninf, .nan => .nan
  | .num a, .num b =>
      if b = 0 then (if a = 0 then .nan else if 0 < a then .inf else .ninf)
      else .num (a / b)
  | .num _, .inf => .num 0
  | .num _, .ninf => .num 0
  | .inf, .num b => if 0 ≤ b then .inf else .ninf
  | .ninf, .num b => if 0 ≤ b then .ninf else .inf
  | .inf, .inf => .nan
  | .inf, .ninf => .nan
  | .ninf, .inf => .nan
  | .ninf, .ninf => .nan

/-- Float comparison `cell <= c` against a rational constant: false when the
cell is NaN (IEEE comparisons with NaN are false). -/
def PFloat.le : PFloat → ℚ → Bool
  | .num a, c => decide (a ≤ c)
  | .nan, _ => false
  | .inf, _ => false
  | .ninf, _ => true

/-- Mean with pandas skip-NaN semantics: drop NaNs, `NaN` on an empty rest,
otherwise sum divided by count. -/
def pmean (l : List PFloat) : PFloat :=
  let vs := l.filter (fun v => !v.isna)
  if vs.isEmpty then .nan
  else pdiv (vs.foldl padd (.num 0)) (.num (vs.length : ℚ))

/-- The five Demographia affordability bands. -/
inductive Band where
  | affordable
  | moderately
  | seriously
  | severely
  | impossibly
deriving DecidableEq, Repr

/-- The exact strings used by the source for each band. -/
def Band.name : Band → String
  | .affordable => "Affordable"
  | .moderately => "Moderately Unaffordable"
  | .seriously => "Seriously Unaffordable"
  | .severely => "Severely Unaffordable"
  | .impossibly => "Impossibly Unaffordable"

/-- The list `AFFORDABILITY_ORDER`: the fixed five-band order of the source. -/
def AFFORDABILITY_ORDER : List Band :=
  [.affordable, .moderately, .seriously, .severely, .impossibly]

/-- Rank of a band in `AFFORDABILITY_ORDER`. -/
def Band.rank : Band → Nat
  | .affordable => 0
  | .moderately => 1
  | .seriously => 2
  | .severely => 3
  | .impossibly => 4

/-- The function `classify_affordability` from `data_utils.py`: Demographia thresholds on
the price-to-income ratio, `None` on a NaN/missing input. -/
def classify_affordability (pti : PFloat) : Option Band :=
  if pti.isna then none
  else if pti.le 3 then some .affordable
  else if pti.le 4 then some .moderately
  else if pti.le 5 then some .seriously
  else if pti.le (89/10) then some .severely
  else some .impossibly

/-- C1: the five inclusive-upper-bound threshold bands of the Classifier, its
boundary values, and null propagation. -/
theorem classify_bands_spec :
    (∀ r : ℚ, r ≤ 3 →
      (classify_affordability (.num r)).map Band.name = some "Affordable") ∧
    (∀ r : ℚ, 3 < r → r ≤ 4 →
      (classify_affordability (.num r)).map Band.name = some "Moderately Unaffordable") ∧
    (∀ r : ℚ, 4 < r → r ≤ 5 →
      (classify_affordability (.num r)).map Band.name = some "Seriously Unaffordable") ∧
    (∀ r : ℚ, 5 < r → r ≤ 89/10 →
      (classify_affordability (.num r)).map Band.name = some "Severely Unaffordable") ∧
    (∀ r : ℚ, 89/10 < r →
      (classify_affordability (.num r)).map Band.name = some "Impossibly Unaffordable") ∧
    (classify_affordability (.num 3)).map Band.name = some "Affordable" ∧
    (classify_affordability (.num (31/10))).map Band.name = some "Moderately Unaffordable" ∧
    (classify_affordability (.num (89/10))).map Band.name = some "Severely Unaffordable" ∧
    (classify_affordability (.num (891/100))).map Band.name = some "Impossibly Unaffordable" ∧
    classify_affordability .nan = none := by
  refine ⟨?_, ?_, ?_, ?_, ?_,
    by norm_num [classify_affordability, PFloat.le, PFloat.isna, Band.name],
    by norm_num [classify_affordability, PFloat.le, PFloat.isna, Band.name],
    by norm_num [classify_affordability, PFloat.le, PFloat.isna, Band.name],
    by norm_num [classify_affordability, PFloat.le, PFloat.isna, Band.name], rfl⟩ <;>
    intro r h <;>
    simp only [classify_affordability, PFloat.isna, PFloat.le, Bool.false_eq_true,
      if_false, decide_eq_true_eq] <;>
    try intro h2
  · rw [if_pos h]; rfl
  · rw [if_neg (by linarith), if_pos h2]; rfl
  · rw [if_neg (by linarith), if_neg (by linarith), if_pos h2]; rfl
  · rw [if_neg (by linarith), if_neg (by linarith), if_neg (by linarith), if_pos h2]; rfl
  · rw [if_neg (by linarith), if_neg (by linarith), if_neg (by linarith),
      if_neg (by linarith)]; rfl

/-- Witness for C1: the quantified band conditions evaluated at concrete
ratios in each band. -/
theorem classify_bands_spec_witness :
    (classify_affordability (.num 2)).map Band.name = some "Affordable" ∧
    (classify_affordability (.num (7/2))).map Band.name = some "Moderately Unaffordable" ∧
    (classify_affordability (.num (9/2))).map Band.name = some "Seriously Unaffordable" ∧
    (classify_affordability (.num 6)).map Band.name = some "Severely Unaffordable" ∧
    (classify_affordability (.num 10)).map Band.name = some "Impossibly Unaffordable" :=
  ⟨classify_bands_spec.1 2 (by norm_num),
   classify_bands_spec.2.1 (7/2) (by norm_num) (by norm_num),
   classify_bands_spec.2.2.1 (9/2) (by norm_num) (by norm_num),
   classify_bands_spec.2.2.2.1 6 (by norm_num) (by norm_num),
   classify_bands_spec.2.2.2.2.1 10 (by norm_num)⟩

/-- Insert into a list sorted by the boolean comparator `le`. -/
def insertLe {α : Type _} (le : α → α → Bool) (x : α) : List α → List α
  | [] => [x]
  | y :: ys => if le x y then x :: y :: ys else y :: insertLe le x ys

/-- Insertion sort by the boolean comparator `le`; models the (stable on the
distinct keys we sort) pandas group-key ordering and `sort_values`. -/
def sortLe {α : Type _} (le : α → α → Bool) : List α → List α
  | [] => []
  | x :: xs => insertLe le x (sortLe le xs)

theorem length_insertLe {α : Type _} (le : α → α → Bool) (x : α) (l : List α) :
    (insertLe le x l).length = l.length + 1 := by
  induction l with
  | nil => rfl
  | cons y ys ih => simp only [insertLe]; split <;> simp [ih]

theorem length_sortLe {α : Type _} (le : α → α → Bool) (l : List α) :
    (sortLe le l).length = l.length := by
  induction l with
  | nil => rfl
  | cons x xs ih => simp [sortLe, length_insertLe, ih]

theorem mem_insertLe {α : Type _} (le : α → α → Bool) (x a : α) (l : List α) :
    a ∈ insertLe le x l ↔ a = x ∨ a ∈ l := by
  induction l with
  | nil => simp [insertLe]
  | cons y ys ih =>
      simp only [insertLe]
      split
      · simp
      · simp only [List.mem_cons, ih]; tauto

theorem mem_sortLe {α : Type _} (le : α → α → Bool) (a : α) (l : List α) :
    a ∈ sortLe le l ↔ a ∈ l := by
  induction l with
  | nil => simp [sortLe]
  | cons x xs ih => simp [sortLe, mem_insertLe, ih]

theorem pairwise_insertLe {α : Type _} (le : α → α → Bool)
    (htot : ∀ a b, le a b = true ∨ le b a = true)
    (htrans : ∀ a b c, le a b = true → le b c = true → le a c = true)
    (x : α) (l : List α) (hl : l.Pairwise (fun a b => le a b = true)) :
    (insertLe le x l).Pairwise (fun a b => le a b = true) := by
  induction l with
  | nil => simp [insertLe]
  | cons y ys ih =>
      rcases List.pairwise_cons.mp hl with ⟨hy, hys⟩
      simp only [insertLe]
      split
      · rename_i hxy
        refine List.pairwise_cons.mpr ⟨?_, hl⟩
        intro z hz
        rcases List.mem_cons.mp hz with rfl | hz
        · exact hxy
        · exact htrans x y z hxy (hy z hz)
      · rename_i hxy
        refine List.pairwise_cons.mpr ⟨?_, ih hys⟩
        intro z hz
        rcases (mem_insertLe le x z ys).mp hz with h1 | hz
        · rcases htot y z with h | h
          · exact h
          · exact absurd (h1 ▸ h) (by simpa using hxy)
        · exact hy z hz

theorem pairwise_sortLe {α : Type _} (le : α → α → Bool)
    (htot : ∀ a b, le a b = true ∨ le b a = true)
    (htrans : ∀ a b c, le a b = true → le b c = true → le a c = true)
    (l : List α) : (sortLe le l).Pairwise (fun a b => le a b = true) := by
  induction l with
  | nil => simp [sortLe]
  | cons x xs ih => exact pairwise_insertLe le htot htrans x _ ih

/-- A calendar date: the year together with a sub-year position (month/day),
ordered lexicographically. -/
structure Date where
  year : Int
  sub : Nat
deriving DecidableEq, Repr

/-- Comparator for sorting dates (the pandas group-key order). -/
def dateLe (a b : Date) : Bool :=
  decide (a.year < b.year) || (decide (a.year = b.year) && decide (a.sub ≤ b.sub))

/-- A raw `date` cell: either parseable to a calendar date or not
(`pd.to_datetime` raises on the latter). -/
inductive RawDate where
  | valid (d : Date)
  | invalid
deriving DecidableEq, Repr

/-- One row of the raw HouseTS table.  `raw_year` is the value of the
preexisting `year` column (if that column is present in the table). -/
structure RawRow where
  date : RawDate
  median_sale_price : PFloat
  median_rent : PFloat
  per_capita_income : PFloat
  raw_year : PFloat
  city_full : String
deriving DecidableEq, Repr

/-- The raw table: rows plus presence flags for the columns the pipeline
touches (pandas raises `KeyError` when an absent column is accessed). -/
structure RawTable where
  has_date : Bool
  has_median_sale_price : Bool
  has_median_rent : Bool
  has_per_capita_income : Bool
  has_city_full : Bool
  has_year : Bool
  rows : List RawRow
deriving DecidableEq, Repr

/-- One row of the enriched table produced by `add_derived_columns`. -/
structure EnrichedRow where
  city_full : String
  date : Date
  year : Int
  median_sale_price : PFloat
  median_household_income_est : PFloat
  price_to_income : PFloat
  rent_to_income : PFloat
  price_to_rent : PFloat
  affordability_rating : Option Band
deriving DecidableEq, Repr

/-- Errors of the Column Deriver: `keyError c` models pandas raising
`KeyError` on access to the absent column `c` (the spec's DataFormatError);
`badDate` models `pd.to_datetime` raising on an unparseable value (the spec's
ParseError). -/
inductive DeriveError where
  | keyError (col : String)
  | badDate
deriving DecidableEq, Repr

/-- Field-by-field copy of a raw row (part of `df_raw.copy()`). -/
def copyRawRow (r : RawRow) : RawRow :=
  { date := r.date, median_sale_price := r.median_sale_price,
    median_rent := r.median_rent, per_capita_income := r.per_capita_income,
    raw_year := r.raw_year, city_full := r.city_full }

/-- Model of `df_raw.copy()`: a fresh table with copied rows; the deriver works on the
copy so the caller's table is untouched. -/
def copyRaw (t : RawTable) : RawTable :=
  { has_date := t.has_date, has_median_sale_price := t.has_median_sale_price,
    has_median_rent := t.has_median_rent,
    has_per_capita_income := t.has_per_capita_income,
    has_city_full := t.has_city_full, has_year := t.has_year,
    rows := t.rows.map copyRawRow }

/-- Model of `pd.to_datetime` over the whole `date` column: fails if any value is
unparseable, otherwise pairs every row with its parsed date. -/
def parseDates : List RawRow → Option (List (RawRow × Date))
  | [] => some []
  | r :: rs =>
      match r.date with
      | .invalid => none
      | .valid d => (parseDates rs).map (fun l => (r, d) :: l)

/-- Model of `.replace(0, np.nan)` on a cell: the safe-denominator step. -/
def replace0 (v : PFloat) : PFloat :=
  if v = .num 0 then .nan else v

/-- Derivation of one enriched row from a raw row and its parsed date,
following the column formulas of `add_derived_columns`. -/
def deriveRow (r : RawRow) (d : Date) : EnrichedRow :=
  let income_pc := replace0 r.per_capita_income
  let rent := replace0 r.median_rent
  let est := pmul income_pc (.num (251/100))
  let pti := pdiv r.median_sale_price est
  { city_full := r.city_full, date := d, year := d.year,
    median_sale_price := r.median_sale_price,
    median_household_income_est := est,
    price_to_income := pti,
    rent_to_income := pdiv (pmul rent (.num 12)) est,
    price_to_rent := pdiv r.median_sale_price (pmul rent (.num 12)),
    affordability_rating := classify_affordability pti }

/-- The function `add_derived_columns` from `data_utils.py`.  Column accesses happen in
source order: `date` (parse), `Per Capita Income`, `Median Rent`,
`median_sale_price`; `city_full` is never accessed by this function. -/
def add_derived_columns (df_raw : RawTable) : Except DeriveError (List EnrichedRow) :=
  let df := copyRaw df_raw
  if df.has_date = false then .error (.keyError "date")
  else
    match parseDates df.rows with
    | none => .error .badDate
    | some parsed =>
        if df.has_per_capita_income = false then .error (.keyError "Per Capita Income")
        else if df.has_median_rent = false then .error (.keyError "Median Rent")
        else if df.has_median_sale_price = false then .error (.keyError "median_sale_price")
        else .ok (parsed.map (fun p => deriveRow p.1 p.2))

theorem copyRawRow_eq (r : RawRow) : copyRawRow r = r := rfl

theorem copyRaw_rows (rows : List RawRow) : rows.map copyRawRow = rows := by
  induction rows with
  | nil => rfl
  | cons r rs ih => simp only [List.map_cons, copyRawRow_eq, ih]

theorem copyRaw_eq (t : RawTable) : copyRaw t = t := by
  cases t
  simp [copyRaw, copyRaw_rows]

theorem get_eq_of_eq {α : Type _} {l1 l2 : List α} (h : l1 = l2) (i : Nat)
    (h1 : i < l1.length) (h2 : i < l2.length) : l1.get ⟨i, h1⟩ = l2.get ⟨i, h2⟩ := by
  subst h; rfl

theorem parseDates_eq_none_iff (rows : List RawRow) :
    parseDates rows = none ↔ ∃ r ∈ rows, r.date = RawDate.invalid := by
  induction rows with
  | nil => simp [parseDates]
  | cons r rs ih =>
      cases hd : r.date with
      | invalid => simp [parseDates, hd]
      | valid d => simp [parseDates, hd, ih]

theorem parseDates_isSome (rows : List RawRow)
    (h : ∀ r ∈ rows, r.date ≠ RawDate.invalid) :
    ∃ l, parseDates rows = some l := by
  cases hp : parseDates rows with
  | some l => exact ⟨l, rfl⟩
  | none =>
      obtain ⟨r, hr, hinv⟩ := (parseDates_eq_none_iff rows).mp hp
      exact absurd hinv (h r hr)

theorem parseDates_fst (rows : List RawRow) (l : List (RawRow × Date))
    (h : parseDates rows = some l) : l.map Prod.fst = rows := by
  induction rows generalizing l with
  | nil =>
      simp only [parseDates, Option.some.injEq] at h
      subst h; rfl
  | cons r rs ih =>
      cases hd : r.date with
      | invalid => simp [parseDates, hd] at h
      | valid d =>
          simp only [parseDates, hd] at h
          cases hp : parseDates rs with
          | none => rw [hp] at h; simp at h
          | some l2 =>
              rw [hp] at h
              simp only [Option.map_some', Option.some.injEq] at h
              subst h
              simp [ih l2 hp]

theorem pdiv_nan_right (x : PFloat) : pdiv x PFloat.nan = PFloat.nan := by
  cases x <;> rfl

theorem deriveRow_zero_income (r : RawRow) (d : Date)
    (h : r.per_capita_income = PFloat.num 0) :
    (deriveRow r d).median_household_income_est = PFloat.nan ∧
    (deriveRow r d).price_to_income = PFloat.nan ∧
    (deriveRow r d).rent_to_income = PFloat.nan ∧
    (deriveRow r d).affordability_rating = none := by
  simp [deriveRow, replace0, h, pmul, pdiv_nan_right, classify_affordability, PFloat.isna]

/-- C3: a row with `Per Capita Income = 0` yields NaN (pandas null) for the
household-income estimate and both income ratios, and a null rating; the
deriver succeeds (no division error) and no infinity or finite value is
produced in those fields. -/
theorem derive_zero_income_null (raw : RawTable)
    (hD : raw.has_date = true) (hI : raw.has_per_capita_income = true)
    (hR : raw.has_median_rent = true) (hP : raw.has_median_sale_price = true)
    (hvalid : ∀ r ∈ raw.rows, r.date ≠ RawDate.invalid) :
    ∃ enr, add_derived_columns raw = Except.ok enr ∧
      enr.length = raw.rows.length ∧
      ∀ i (hi : i < enr.length) (hi2 : i < raw.rows.length),
        (raw.rows.get ⟨i, hi2⟩).per_capita_income = PFloat.num 0 →
        (enr.get ⟨i, hi⟩).median_household_income_est = PFloat.nan ∧
        (enr.get ⟨i, hi⟩).price_to_income = PFloat.nan ∧
        (enr.get ⟨i, hi⟩).rent_to_income = PFloat.nan ∧
        (enr.get ⟨i, hi⟩).affordability_rating = none := by
  obtain ⟨l, hl⟩ := parseDates_isSome raw.rows hvalid
  have hfst : l.map Prod.fst = raw.rows := parseDates_fst raw.rows l hl
  have hlen : l.length = raw.rows.length := by
    rw [← hfst, List.length_map]
  refine ⟨l.map (fun p => deriveRow p.1 p.2), ?_, by simp [hlen], ?_⟩
  · simp [add_derived_columns, copyRaw_eq, hl, hD, hI, hR, hP]
  · intro i hi hi2 h0
    have hrow : raw.rows.get ⟨i, hi2⟩ = (l.get ⟨i, by omega⟩).1 := by
      rw [get_eq_of_eq hfst.symm i hi2 (by simp only [List.length_map]; omega)]
      simp [List.get_eq_getElem, List.getElem_map]
    have hget : (l.map (fun p => deriveRow p.1 p.2)).get ⟨i, hi⟩ =
        deriveRow (l.get ⟨i, by omega⟩).1 (l.get ⟨i, by omega⟩).2 := by
      simp [List.get_eq_getElem, List.getElem_map]
    rw [hget]
    exact deriveRow_zero_income _ _ (by rw [← hrow]; exact h0)

/-- Concrete raw table with a single zero-income row. -/
def rawZeroIncome : RawTable :=
  { has_date := true, has_median_sale_price := true, has_median_rent := true,
    has_per_capita_income := true, has_city_full := true, has_year := false,
    rows := [{ date := .valid ⟨2012, 0⟩, median_sale_price := .num 300000,
               median_rent := .num 1500, per_capita_income := .num 0,
               raw_year := .nan, city_full := "A" }] }

/-- Witness for C3 at `rawZeroIncome`. -/
theorem derive_zero_income_null_witness :
    (∀ r ∈ rawZeroIncome.rows, r.date ≠ RawDate.invalid) ∧
    ∃ enr, add_derived_columns rawZeroIncome = Except.ok enr ∧
      enr.length = rawZeroIncome.rows.length ∧
      ∀ i (hi : i < enr.length) (hi2 : i < rawZeroIncome.rows.length),
        (rawZeroIncome.rows.get ⟨i, hi2⟩).per_capita_income = PFloat.num 0 →
        (enr.get ⟨i, hi⟩).median_household_income_est = PFloat.nan ∧
        (enr.get ⟨i, hi⟩).price_to_income = PFloat.nan ∧
        (enr.get ⟨i, hi⟩).rent_to_income = PFloat.nan ∧
        (enr.get ⟨i, hi⟩).affordability_rating = none :=
  ⟨by decide,
   derive_zero_income_null rawZeroIncome rfl rfl rfl rfl (by decide)⟩

/-- C7 (amended): the Column Deriver raises `KeyError` exactly for the four
columns it accesses (`date`, `Per Capita Income`, `Median Rent`,
`median_sale_price`, in source order), raises a parse error when a date is
unparseable, and otherwise succeeds; a missing `city_full` column is never
detected by this function. -/
theorem derive_error_conditions (raw : RawTable) :
    (raw.has_date = false → add_derived_columns raw = .error (.keyError "date")) ∧
    (raw.has_date = true → (∃ r ∈ raw.rows, r.date = RawDate.invalid) →
      add_derived_columns raw = .error .badDate) ∧
    (raw.has_date = true → (∀ r ∈ raw.rows, r.date ≠ RawDate.invalid) →
      raw.has_per_capita_income = false →
      add_derived_columns raw = .error (.keyError "Per Capita Income")) ∧
    (raw.has_date = true → (∀ r ∈ raw.rows, r.date ≠ RawDate.invalid) →
      raw.has_per_capita_income = true → raw.has_median_rent = false →
      add_derived_columns raw = .error (.keyError "Median Rent")) ∧
    (raw.has_date = true → (∀ r ∈ raw.rows, r.date ≠ RawDate.invalid) →
      raw.has_per_capita_income = true → raw.has_median_rent = true →
      raw.has_median_sale_price = false →
      add_derived_columns raw = .error (.keyError "median_sale_price")) ∧
    (raw.has_date = true → (∀ r ∈ raw.rows, r.date ≠ RawDate.invalid) →
      raw.has_per_capita_income = true → raw.has_median_rent = true →
      raw.has_median_sale_price = true →
      ∃ enr, add_derived_columns raw = .ok enr) := by
  refine ⟨?_, ?_, ?_, ?_, ?_, ?_⟩
  · intro h; simp [add_derived_columns, copyRaw_eq, h]
  · intro h1 h2
    have hn : parseDates raw.rows = none := (parseDates_eq_none_iff raw.rows).mpr h2
    simp [add_derived_columns, copyRaw_eq, h1, hn]
  · intro h1 h2 h3
    obtain ⟨l, hl⟩ := parseDates_isSome raw.rows h2
    simp [add_derived_columns, copyRaw_eq, h1, hl, h3]
  · intro h1 h2 h3 h4
    obtain ⟨l, hl⟩ := parseDates_isSome raw.rows h2
    simp [add_derived_columns, copyRaw_eq, h1, hl, h3, h4]
  · intro h1 h2 h3 h4 h5
    obtain ⟨l, hl⟩ := parseDates_isSome raw.rows h2
    simp [add_derived_columns, copyRaw_eq, h1, hl, h3, h4, h5]
  · intro h1 h2 h3 h4 h5
    obtain ⟨l, hl⟩ := parseDates_isSome raw.rows h2
    exact ⟨l.map (fun p => deriveRow p.1 p.2),
      by simp [add_derived_columns, copyRaw_eq, h1, hl, h3, h4, h5]⟩

/-- Witness for C7 at a table missing only `Per Capita Income`. -/
theorem derive_error_conditions_witness :
    add_derived_columns
      { has_date := true, has_median_sale_price := true, has_median_rent := true,
        has_per_capita_income := false, has_city_full := true, has_year := false,
        rows := [] } = .error (.keyError "Per Capita Income") :=
  (derive_error_conditions _).2.2.1 rfl (by decide) rfl

/-- Raw table with every column the deriver reads but no `city_full`. -/
def rawNoCity : RawTable :=
  { has_date := true, has_median_sale_price := true, has_median_rent := true,
    has_per_capita_income := true, has_city_full := false, has_year := false,
    rows := [] }

/-- Counterexample to C7 as stated: `city_full` is absent yet the Column
Deriver succeeds, producing an enriched table instead of a DataFormatError. -/
theorem derive_missing_city_ok :
    rawNoCity.has_city_full = false ∧ add_derived_columns rawNoCity = .ok [] :=
  ⟨rfl, rfl⟩

/-- Overwrite the preexisting `year` cell of a raw row. -/
def setRowYear (f : RawRow → PFloat) (r : RawRow) : RawRow :=
  { r with raw_year := f r }

/-- Change the preexisting `year` column of a raw table (both its presence
flag and its per-row values). -/
def setYears (t : RawTable) (c : Bool) (f : RawRow → PFloat) : RawTable :=
  { t with has_year := c, rows := t.rows.map (setRowYear f) }

theorem parseDates_setRowYear (f : RawRow → PFloat) (rows : List RawRow) :
    parseDates (rows.map (setRowYear f)) =
      (parseDates rows).map (List.map (fun p => (setRowYear f p.1, p.2))) := by
  induction rows with
  | nil => rfl
  | cons r rs ih =>
      cases hd : r.date with
      | invalid => simp [parseDates, setRowYear, hd]
      | valid d =>
          cases hp : parseDates rs with
          | none => simp [parseDates, setRowYear, hd, hp, ih]
          | some l2 => simp [parseDates, setRowYear, hd, hp, ih]

/-- C9: the Column Deriver leaves its input untouched (it operates on
`df_raw.copy()`, which equals the input), its output is independent of any
preexisting `year` column, and in the output `year` always agrees with the
parsed date. -/
theorem derive_pure_year_recomputed (raw : RawTable) (c : Bool) (f : RawRow → PFloat) :
    copyRaw raw = raw ∧
    add_derived_columns (setYears raw c f) = add_derived_columns raw ∧
    ∀ enr, add_derived_columns raw = .ok enr → ∀ e ∈ enr, e.year = e.date.year := by
  refine ⟨copyRaw_eq raw, ?_, ?_⟩
  · simp only [add_derived_columns, copyRaw_eq, setYears, parseDates_setRowYear]
    cases hp : parseDates raw.rows with
    | none => simp
    | some l =>
        simp only [Option.map_some']
        have hmap : (l.map (fun p => (setRowYear f p.1, p.2))).map
            (fun p => deriveRow p.1 p.2) = l.map (fun p => deriveRow p.1 p.2) := by
          rw [List.map_map]; rfl
        simp [hmap]
  · intro enr h
    simp only [add_derived_columns, copyRaw_eq] at h
    split at h
    · exact absurd h (by simp)
    · rename_i heq
      split at h
      · exact absurd h (by simp)
      · rename_i l heq2
        split at h
        · exact absurd h (by simp)
        · split at h
          · exact absurd h (by simp)
          · split at h
            · exact absurd h (by simp)
            · simp only [Except.ok.injEq] at h
              subst h
              intro e he
              obtain ⟨p, _, rfl⟩ := List.mem_map.mp he
              rfl

/-- Witness for C9 at `rawZeroIncome`, overwriting the stored year with 1999. -/
theorem derive_pure_year_recomputed_witness :
    copyRaw rawZeroIncome = rawZeroIncome ∧
    add_derived_columns (setYears rawZeroIncome true (fun _ => PFloat.num 1999)) =
      add_derived_columns rawZeroIncome ∧
    ∀ enr, add_derived_columns rawZeroIncome = .ok enr → ∀ e ∈ enr, e.year = e.date.year :=
  derive_pure_year_recomputed rawZeroIncome true (fun _ => PFloat.num 1999)

/-- A composite row before the index columns are added: the per-date means
computed by `df.groupby("date", as_index=False)[...].mean()`. -/
structure GRow where
  date : Date
  composite_price : PFloat
  composite_income : PFloat
  composite_pti : PFloat
deriving DecidableEq, Repr

/-- The grouping step of `composite_series`: distinct dates (pandas `groupby`
sorts the keys ascending) with skip-NaN means of the three columns. -/
def compositeGrouped (df : List EnrichedRow) : List GRow :=
  let keys := sortLe dateLe ((df.map (fun r => r.date)).dedup)
  keys.map (fun d =>
    let grp := df.filter (fun r => decide (r.date = d))
    { date := d,
      composite_price := pmean (grp.map (fun r => r.median_sale_price)),
      composite_income := pmean (grp.map (fun r => r.median_household_income_est)),
      composite_pti := pmean (grp.map (fun r => r.price_to_income)) })

/-- Model of `grouped["date"].dt.year.min()`: the minimum year among the grouped rows
(`none` models the NaN produced on an empty frame). -/
def minYearOf (g : List GRow) : Option Int :=
  (g.map (fun r => r.date.year)).min?

/-- Model of `grouped[grouped["date"].dt.year == first_year].iloc[0]`: the first
grouped row (in post-grouping order) whose date falls in the minimum year;
`none` models the `IndexError` raised by `.iloc[0]` on an empty selection. -/
def compositeBase (g : List GRow) : Option GRow :=
  (minYearOf g).bind (fun fy => g.find? (fun r => decide (r.date.year = fy)))

/-- The error `composite_series` can raise: the `IndexError` from `.iloc[0]`
when the base-row selection is empty (which happens exactly on empty input). -/
inductive CompositeError where
  | indexError
deriving DecidableEq, Repr

/-- One row of the composite series. -/
structure CompRow where
  date : Date
  composite_price : PFloat
  composite_income : PFloat
  composite_pti : PFloat
  price_index : PFloat
  income_index : PFloat
  year : Int
  affordability_rating : Option Band
deriving DecidableEq, Repr

/-- The function `composite_series` from `data_utils.py`: per-date means, indexes
normalized to the first row of the minimum year, recomputed `year`, and a
classification of the composite PTI.  Note the source performs the divisions
unconditionally: a zero or NaN base denominator silently yields inf/NaN. -/
def composite_series (df : List EnrichedRow) : Except CompositeError (List CompRow) :=
  let g := compositeGrouped df
  match compositeBase g with
  | none => .error .indexError
  | some base =>
      .ok (g.map (fun r =>
        { date := r.date,
          composite_price := r.composite_price,
          composite_income := r.composite_income,
          composite_pti := r.composite_pti,
          price_index := pmul (pdiv r.composite_price base.composite_price) (.num 100),
          income_index := pmul (pdiv r.composite_income base.composite_income) (.num 100),
          year := r.date.year,
          affordability_rating := classify_affordability r.composite_pti }))

/-- One row of the metro-year summary. -/
structure SummaryRow where
  city_full : String
  year : Int
  price_to_income : PFloat
  rent_to_income : PFloat
  affordability_rating : Option Band
deriving DecidableEq, Repr

/-- Comparator for the pandas group-key order on (city_full, year). -/
def cityYearLe (a b : String × Int) : Bool :=
  decide (a.1 < b.1) || (decide (a.1 = b.1) && decide (a.2 ≤ b.2))

/-- The function `yearly_metro_summary` from `data_utils.py`: one row per distinct
(city_full, year) key with skip-NaN means of the two ratios, and a fresh
classification of the mean PTI. -/
def yearly_metro_summary (df : List EnrichedRow) : List SummaryRow :=
  let keys := sortLe cityYearLe ((df.map (fun r => (r.city_full, r.year))).dedup)
  keys.map (fun k =>
    let grp := df.filter (fun r => decide (r.city_full = k.1) && decide (r.year = k.2))
    let pti := pmean (grp.map (fun r => r.price_to_income))
    { city_full := k.1, year := k.2,
      price_to_income := pti,
      rent_to_income := pmean (grp.map (fun r => r.rent_to_income)),
      affordability_rating := classify_affordability pti })

/-- One row of the band-count table. -/
structure CountRow where
  year : Int
  affordability_rating : Band
  n_metros : Nat
deriving DecidableEq, Repr

/-- Comparator for `sort_values(["year", "affordability_rating"])` with the
rating an ordered categorical over `AFFORDABILITY_ORDER`. -/
def yearBandLe (a b : Int × Band) : Bool :=
  decide (a.1 < b.1) || (decide (a.1 = b.1) && decide (a.2.rank ≤ b.2.rank))

/-- The (year, rating) group keys of the non-null-rated summary rows (pandas
`groupby` drops null keys). -/
def bandPairs (summary : List SummaryRow) : List (Int × Band) :=
  summary.filterMap (fun r => r.affordability_rating.map (fun b => (r.year, b)))

/-- The function `affordability_counts_by_year` from `data_utils.py`: group the summary by
(year, rating) — pandas `groupby` drops null keys — count group sizes, and
sort by year then band order. -/
def affordability_counts_by_year (summary : List SummaryRow) : List CountRow :=
  let pairs := bandPairs summary
  let keys := sortLe yearBandLe pairs.dedup
  keys.map (fun k =>
    { year := k.1, affordability_rating := k.2, n_metros := pairs.count k })

/-- The function `latest_year` from `data_utils.py`: `int(summary["year"].max())`; on an
empty summary `max()` is NaN and `int(NaN)` raises, modelled by `none`. -/
def latest_year (summary : List SummaryRow) : Option Int :=
  (summary.map (fun r => r.year)).max?

/-- C2 (amended): the normalization base is the first post-grouping composite
row of the minimum year, every row's indexes are `(value / base value) × 100`,
and — provided the base row's composite price and income are nonzero finite
numbers — the base row's own indexes are exactly 100. -/
theorem composite_index_base_100 (tbl : List EnrichedRow) (b : GRow) (p q : ℚ)
    (hb : compositeBase (compositeGrouped tbl) = some b)
    (hp : b.composite_price = PFloat.num p) (hp0 : p ≠ 0)
    (hq : b.composite_income = PFloat.num q) (hq0 : q ≠ 0) :
    b ∈ compositeGrouped tbl ∧
    minYearOf (compositeGrouped tbl) = some b.date.year ∧
    ∃ rows, composite_series tbl = .ok rows ∧
      (∀ c ∈ rows,
        c.price_index = pmul (pdiv c.composite_price (PFloat.num p)) (PFloat.num 100) ∧
        c.income_index = pmul (pdiv c.composite_income (PFloat.num q)) (PFloat.num 100)) ∧
      ∃ c ∈ rows, c.date = b.date ∧ c.price_index = PFloat.num 100 ∧
        c.income_index = PFloat.num 100 := by
  obtain ⟨fy, hfy, hfind⟩ := Option.bind_eq_some.mp hb
  have hbmem : b ∈ compositeGrouped tbl := List.mem_of_find?_eq_some hfind
  have hbyear : b.date.year = fy := by
    have := List.find?_some hfind
    simpa using this
  have hone : pmul (pdiv (PFloat.num p) (PFloat.num p)) (PFloat.num 100) = PFloat.num 100 := by
    simp [pdiv, pmul, hp0, div_self hp0]
  have honeq : pmul (pdiv (PFloat.num q) (PFloat.num q)) (PFloat.num 100) = PFloat.num 100 := by
    simp [pdiv, pmul, hq0, div_self hq0]
  refine ⟨hbmem, by rw [hfy, hbyear], ?_⟩
  refine ⟨(compositeGrouped tbl).map (fun r =>
      { date := r.date, composite_price := r.composite_price,
        composite_income := r.composite_income, composite_pti := r.composite_pti,
        price_index := pmul (pdiv r.composite_price b.composite_price) (.num 100),
        income_index := pmul (pdiv r.composite_income b.composite_income) (.num 100),
        year := r.date.year,
        affordability_rating := classify_affordability r.composite_pti }),
    by simp [composite_series, hb], ?_, ?_⟩
  · intro c hc
    obtain ⟨r, _, rfl⟩ := List.mem_map.mp hc
    exact ⟨by rw [hp], by rw [hq]⟩
  · refine ⟨_, List.mem_map_of_mem _ hbmem, rfl, ?_, ?_⟩
    · show pmul (pdiv b.composite_price b.composite_price) (PFloat.num 100) = PFloat.num 100
      rw [hp]; exact hone
    · show pmul (pdiv b.composite_income b.composite_income) (PFloat.num 100) = PFloat.num 100
      rw [hq]; exact honeq

/-- The spec's end-to-end composite scenario: one metro, one observation in
each of 2012 and 2013. -/
def enrTwoYears : List EnrichedRow :=
  [{ city_full := "A", date := ⟨2012, 0⟩, year := 2012,
     median_sale_price := .num 200000, median_household_income_est := .num 80000,
     price_to_income := .num (5/2), rent_to_income := .num (1/4),
     price_to_rent := .num 10, affordability_rating := some .affordable },
   { city_full := "A", date := ⟨2013, 0⟩, year := 2013,
     median_sale_price := .num 220000, median_household_income_est := .num 82000,
     price_to_income := .num (110/41), rent_to_income := .num (1/4),
     price_to_rent := .num 11, affordability_rating := some .affordable }]

/-- The grouped composite row for 2012 in `enrTwoYears`. -/
def baseTwoYears : GRow :=
  { date := ⟨2012, 0⟩, composite_price := .num 200000,
    composite_income := .num 80000, composite_pti := .num (5/2) }

theorem compositeBase_enrTwoYears :
    compositeBase (compositeGrouped enrTwoYears) = some baseTwoYears := by
  norm_num [compositeBase, compositeGrouped, minYearOf, sortLe, insertLe, dateLe,
    pmean, padd, pdiv, PFloat.isna, List.find?, List.dedup, baseTwoYears, enrTwoYears,
    List.min?]

/-- Witness for C2 at `enrTwoYears`. -/
theorem composite_index_base_100_witness :
    baseTwoYears ∈ compositeGrouped enrTwoYears ∧
    minYearOf (compositeGrouped enrTwoYears) = some baseTwoYears.date.year ∧
    ∃ rows, composite_series enrTwoYears = .ok rows ∧
      (∀ c ∈ rows,
        c.price_index = pmul (pdiv c.composite_price (PFloat.num 200000)) (PFloat.num 100) ∧
        c.income_index = pmul (pdiv c.composite_income (PFloat.num 80000)) (PFloat.num 100)) ∧
      ∃ c ∈ rows, c.date = baseTwoYears.date ∧ c.price_index = PFloat.num 100 ∧
        c.income_index = PFloat.num 100 :=
  composite_index_base_100 enrTwoYears baseTwoYears 200000 80000
    compositeBase_enrTwoYears rfl (by norm_num) rfl (by norm_num)

/-- Enriched table whose base (and only) composite row has price 0. -/
def enrZeroBase : List EnrichedRow :=
  [{ city_full := "A", date := ⟨2012, 0⟩, year := 2012,
     median_sale_price := .num 0, median_household_income_est := .num 1,
     price_to_income := .nan, rent_to_income := .nan, price_to_rent := .nan,
     affordability_rating := none }]

/-- The composite series the source computes for `enrZeroBase`. -/
def enrZeroBaseOut : List CompRow :=
  [{ date := ⟨2012, 0⟩, composite_price := .num 0, composite_income := .num 1,
     composite_pti := .nan, price_index := .nan, income_index := .num 100,
     year := 2012, affordability_rating := none }]

/-- Counterexample to C2 as stated: the composite grouping of `enrZeroBase`
is non-empty, yet the base row's `price_index` is NaN (0/0), not 100. -/
theorem composite_base_zero_counterexample :
    compositeGrouped enrZeroBase ≠ [] ∧
    composite_series enrZeroBase = .ok enrZeroBaseOut ∧
    enrZeroBaseOut.map (fun r => r.price_index) ≠ [PFloat.num 100] := by
  refine ⟨?_, ?_, by decide⟩
  · norm_num [compositeGrouped, sortLe, insertLe, dateLe, List.dedup, enrZeroBase]
  · norm_num [composite_series, compositeBase, compositeGrouped, minYearOf, sortLe,
      insertLe, dateLe, List.dedup, List.find?, List.min?, pmean, padd, pdiv, pmul,
      PFloat.isna, classify_affordability, PFloat.le, enrZeroBase, enrZeroBaseOut]

/-- C6 (amended): the Composite Aggregator fails — with the `IndexError`
from `.iloc[0]`, the only error it can raise — exactly on an empty enriched
table; on any non-empty table it succeeds (even when the base denominators
are zero or NaN it silently divides), and the Metro-Year Summarizer and Band
Counter succeed on the empty table the aggregator fails on. -/
theorem composite_failure_empty_only (tbl : List EnrichedRow) (h : tbl ≠ []) :
    composite_series ([] : List EnrichedRow) = .error .indexError ∧
    (∃ rows, composite_series tbl = .ok rows) ∧
    yearly_metro_summary ([] : List EnrichedRow) = [] ∧
    affordability_counts_by_year ([] : List SummaryRow) = [] := by
  refine ⟨rfl, ?_, rfl, rfl⟩
  have hg : compositeGrouped tbl ≠ [] := by
    cases tbl with
    | nil => exact absurd rfl h
    | cons r rest =>
        have hmem : r.date ∈ sortLe dateLe (((r :: rest).map (fun x => x.date)).dedup) := by
          rw [mem_sortLe]
          exact List.mem_dedup.mpr (by simp)
        intro hempty
        simp only [compositeGrouped] at hempty
        rw [List.map_eq_nil_iff] at hempty
        rw [hempty] at hmem
        exact absurd hmem (List.not_mem_nil _)
  cases hgc : compositeGrouped tbl with
  | nil => exact absurd hgc hg
  | cons g0 gs =>
      have hfy : ∃ fy, minYearOf (compositeGrouped tbl) = some fy := by
        rw [minYearOf, hgc]; exact ⟨_, rfl⟩
      obtain ⟨fy, hfy⟩ := hfy
      have hfymem : fy ∈ (compositeGrouped tbl).map (fun r => r.date.year) :=
        List.min?_mem (fun a b => min_choice a b) hfy
      obtain ⟨r0, hr0, hr0y⟩ := List.mem_map.mp hfymem
      have hfind : ∃ bb, (compositeGrouped tbl).find?
          (fun r => decide (r.date.year = fy)) = some bb := by
        cases hf : (compositeGrouped tbl).find? (fun r => decide (r.date.year = fy)) with
        | some bb => exact ⟨bb, rfl⟩
        | none =>
            have := List.find?_eq_none.mp hf r0 hr0
            simp [hr0y] at this
      obtain ⟨bb, hbb⟩ := hfind
      refine ⟨(compositeGrouped tbl).map (fun r =>
        { date := r.date, composite_price := r.composite_price,
          composite_income := r.composite_income, composite_pti := r.composite_pti,
          price_index := pmul (pdiv r.composite_price bb.composite_price) (.num 100),
          income_index := pmul (pdiv r.composite_income bb.composite_income) (.num 100),
          year := r.date.year,
          affordability_rating := classify_affordability r.composite_pti }), ?_⟩
      simp [composite_series, compositeBase, hfy, hbb]

/-- Witness for C6 at the non-empty table `enrTwoYears`. -/
theorem composite_failure_empty_only_witness :
    composite_series ([] : List EnrichedRow) = .error .indexError ∧
    (∃ rows, composite_series enrTwoYears = .ok rows) ∧
    yearly_metro_summary ([] : List EnrichedRow) = [] ∧
    affordability_counts_by_year ([] : List SummaryRow) = [] :=
  composite_failure_empty_only enrTwoYears (by decide)

/-- Counterexample to C6 as stated: a table whose base composite price is 0
makes the aggregator silently divide and succeed, not fail. -/
theorem composite_zero_base_no_error :
    compositeBase (compositeGrouped enrZeroBase) =
      some { date := ⟨2012, 0⟩, composite_price := .num 0,
             composite_income := .num 1, composite_pti := .nan } ∧
    composite_series enrZeroBase = .ok enrZeroBaseOut := by
  constructor
  · norm_num [compositeBase, compositeGrouped, minYearOf, sortLe, insertLe, dateLe,
      List.dedup, List.find?, List.min?, pmean, padd, pdiv, PFloat.isna, enrZeroBase]
  · norm_num [composite_series, compositeBase, compositeGrouped, minYearOf, sortLe,
      insertLe, dateLe, List.dedup, List.find?, List.min?, pmean, padd, pdiv, pmul,
      PFloat.isna, classify_affordability, PFloat.le, enrZeroBase, enrZeroBaseOut]

/-- The claim-side count for C4: the number of summary rows of year `y`
rated `b`. -/
def countPair (s : List SummaryRow) (y : Int) (b : Band) : Nat :=
  (s.filter (fun r =>
    decide (r.year = y) && decide (r.affordability_rating = some b))).length

theorem count_bandPairs (s : List SummaryRow) (y : Int) (b : Band) :
    (bandPairs s).count (y, b) = countPair s y b := by
  induction s with
  | nil => rfl
  | cons r rs ih =>
      cases hr : r.affordability_rating with
      | none => simp [bandPairs, countPair, hr, List.filter_cons] at ih ⊢; exact ih
      | some b2 =>
          simp only [bandPairs, countPair, hr, List.filterMap_cons, Option.map_some',
            List.filter_cons, List.count_cons] at ih ⊢
          by_cases hyb : r.year = y ∧ b2 = b
          · obtain ⟨h1, h2⟩ := hyb
            subst h1; subst h2
            simp [ih]
          · have hne : ¬((r.year, b2) = (y, b)) := by
              simp only [Prod.mk.injEq]; tauto
            have hcond : ¬((decide (r.year = y) &&
                decide ((some b2 : Option Band) = some b)) = true) := by
              simp only [Bool.and_eq_true, decide_eq_true_eq, Option.some.injEq]
              tauto
            rw [if_neg (by simpa using hne), if_neg hcond]
            exact ih

theorem mem_bandPairs (s : List SummaryRow) (y : Int) (b : Band) :
    (y, b) ∈ bandPairs s ↔ ∃ r ∈ s, r.year = y ∧ r.affordability_rating = some b := by
  simp only [bandPairs, List.mem_filterMap, Option.map_eq_some', Prod.mk.injEq]
  constructor
  · rintro ⟨r, hr, b2, hb2, hy, rfl⟩
    exact ⟨r, hr, hy, hb2⟩
  · rintro ⟨r, hr, hy, hb⟩
    exact ⟨r, hr, b, hb, hy, rfl⟩

theorem countPair_pos_iff (s : List SummaryRow) (y : Int) (b : Band) :
    0 < countPair s y b ↔ ∃ r ∈ s, r.year = y ∧ r.affordability_rating = some b := by
  rw [countPair, List.length_pos]
  constructor
  · intro hne
    obtain ⟨r, hr⟩ := List.exists_mem_of_ne_nil _ hne
    have hm := List.mem_filter.mp hr
    have hp := hm.2
    simp only [Bool.and_eq_true, decide_eq_true_eq] at hp
    exact ⟨r, hm.1, hp.1, hp.2⟩
  · rintro ⟨r, hr, hy, hb⟩
    refine List.ne_nil_of_mem (a := r) ?_
    rw [List.mem_filter]
    exact ⟨hr, by simp [hy, hb]⟩

theorem yearBandLe_total (a b : Int × Band) :
    yearBandLe a b = true ∨ yearBandLe b a = true := by
  simp only [yearBandLe, Bool.or_eq_true, Bool.and_eq_true, decide_eq_true_eq]
  omega

theorem yearBandLe_trans (a b c : Int × Band)
    (h1 : yearBandLe a b = true) (h2 : yearBandLe b c = true) :
    yearBandLe a c = true := by
  simp only [yearBandLe, Bool.or_eq_true, Bool.and_eq_true, decide_eq_true_eq] at h1 h2 ⊢
  omega

/-- C4: the Band Counter ignores null-rated rows, emits one row per
(year, band) pair with at least one member — with its exact member count,
never zero — and orders the result by year then band order. -/
theorem counts_by_year_spec (s t : List SummaryRow)
    (ht : ∀ r ∈ t, r.affordability_rating = none) :
    affordability_counts_by_year (s ++ t) = affordability_counts_by_year s ∧
    List.Pairwise (fun c1 c2 : CountRow =>
      c1.year < c2.year ∨ (c1.year = c2.year ∧
        c1.affordability_rating.rank ≤ c2.affordability_rating.rank))
      (affordability_counts_by_year s) ∧
    (∀ c ∈ affordability_counts_by_year s,
      c.n_metros = countPair s c.year c.affordability_rating ∧ 0 < c.n_metros) ∧
    (∀ y b, 0 < countPair s y b →
      ∃ c ∈ affordability_counts_by_year s, c.year = y ∧
        c.affordability_rating = b ∧ c.n_metros = countPair s y b) := by
  refine ⟨?_, ?_, ?_, ?_⟩
  · have hnil : bandPairs t = [] := by
      simp only [bandPairs, List.filterMap_eq_nil_iff]
      intro r hr
      simp [ht r hr]
    have happ : bandPairs (s ++ t) = bandPairs s := by
      show List.filterMap _ (s ++ t) = _
      rw [List.filterMap_append]
      change bandPairs s ++ bandPairs t = bandPairs s
      rw [hnil, List.append_nil]
    simp only [affordability_counts_by_year, happ]
  · have hpw := pairwise_sortLe yearBandLe yearBandLe_total yearBandLe_trans
      (bandPairs s).dedup
    refine List.Pairwise.map _ ?_ hpw
    intro k1 k2 hk
    simpa only [yearBandLe, Bool.or_eq_true, Bool.and_eq_true, decide_eq_true_eq]
      using hk
  · intro c hc
    simp only [affordability_counts_by_year] at hc
    obtain ⟨k, hk, rfl⟩ := List.mem_map.mp hc
    have hkmem : k ∈ bandPairs s :=
      List.mem_dedup.mp ((mem_sortLe yearBandLe k _).mp hk)
    constructor
    · show (bandPairs s).count k = countPair s k.1 k.2
      rw [← count_bandPairs]
    · show 0 < (bandPairs s).count k
      exact List.count_pos_iff.mpr hkmem
  · intro y b hpos
    have hmem : (y, b) ∈ bandPairs s :=
      (mem_bandPairs s y b).mpr ((countPair_pos_iff s y b).mp hpos)
    have hsort : (y, b) ∈ sortLe yearBandLe (bandPairs s).dedup :=
      (mem_sortLe yearBandLe _ _).mpr (List.mem_dedup.mpr hmem)
    refine ⟨{ year := y, affordability_rating := b,
              n_metros := (bandPairs s).count (y, b) }, ?_, rfl, rfl, ?_⟩
    · simp only [affordability_counts_by_year]
      exact List.mem_map.mpr ⟨(y, b), hsort, rfl⟩
    · exact count_bandPairs s y b

/-- The metro-year summary of the spec's end-to-end scenario: metros A and B
over 2012 and 2013. -/
def summaryScenario : List SummaryRow :=
  [{ city_full := "A", year := 2012, price_to_income := .num (5/2),
     rent_to_income := .num (1/4), affordability_rating := some .affordable },
   { city_full := "A", year := 2013, price_to_income := .num (7/2),
     rent_to_income := .num (1/4), affordability_rating := some .moderately },
   { city_full := "B", year := 2012, price_to_income := .num (19/2),
     rent_to_income := .num (1/2), affordability_rating := some .impossibly },
   { city_full := "B", year := 2013, price_to_income := .num 10,
     rent_to_income := .num (1/2), affordability_rating := some .impossibly }]

/-- A summary row with a null rating, to exercise null-key exclusion. -/
def summaryNullRow : List SummaryRow :=
  [{ city_full := "C", year := 2012, price_to_income := .nan,
     rent_to_income := .nan, affordability_rating := none }]

/-- Witness for C4 at the scenario summary plus a null-rated row. -/
theorem counts_by_year_spec_witness :
    affordability_counts_by_year (summaryScenario ++ summaryNullRow) =
      affordability_counts_by_year summaryScenario ∧
    List.Pairwise (fun c1 c2 : CountRow =>
      c1.year < c2.year ∨ (c1.year = c2.year ∧
        c1.affordability_rating.rank ≤ c2.affordability_rating.rank))
      (affordability_counts_by_year summaryScenario) ∧
    (∀ c ∈ affordability_counts_by_year summaryScenario,
      c.n_metros = countPair summaryScenario c.year c.affordability_rating ∧
      0 < c.n_metros) ∧
    (∀ y b, 0 < countPair summaryScenario y b →
      ∃ c ∈ affordability_counts_by_year summaryScenario, c.year = y ∧
        c.affordability_rating = b ∧ c.n_metros = countPair summaryScenario y b) :=
  counts_by_year_spec summaryScenario summaryNullRow (by decide)

/-- The distinct (metro, year) pairs of an enriched table (first-occurrence
order). -/
def distinctMetroYearPairs (df : List EnrichedRow) : List (String × Int) :=
  (df.map (fun r => (r.city_full, r.year))).dedup

/-- The claim's own notion for C5, stated from the spec's words: the distinct
(metro, year) pairs having at least one non-null `price_to_income` or at
least one non-null `rent_to_income`. -/
def qualifyingPairs (df : List EnrichedRow) : List (String × Int) :=
  ((df.filter (fun r =>
      !r.price_to_income.isna || !r.rent_to_income.isna)).map
    (fun r => (r.city_full, r.year))).dedup

/-- C5 (amended): the Metro-Year Summarizer emits exactly one row per
distinct (metro, year) pair present in the enriched table, whether or not the
pair has any non-null ratio. -/
theorem summary_rowcount_distinct_pairs (df : List EnrichedRow) :
    (yearly_metro_summary df).length = (distinctMetroYearPairs df).length := by
  simp [yearly_metro_summary, distinctMetroYearPairs, length_sortLe]

/-- Enriched table whose single row has NaN in both ratios. -/
def enrAllNull : List EnrichedRow :=
  [{ city_full := "A", date := ⟨2012, 0⟩, year := 2012,
     median_sale_price := .num 300000, median_household_income_est := .nan,
     price_to_income := .nan, rent_to_income := .nan, price_to_rent := .nan,
     affordability_rating := none }]

/-- Counterexample to C5 as stated: the summary has one row although no
(metro, year) pair has a non-null ratio. -/
theorem summary_rowcount_counterexample :
    (yearly_metro_summary enrAllNull).length = 1 ∧
    (qualifyingPairs enrAllNull).length = 0 ∧
    (yearly_metro_summary enrAllNull).length ≠ (qualifyingPairs enrAllNull).length := by
  refine ⟨rfl, rfl, by decide⟩

/-- C10: `latest_year` of a non-empty summary is the maximum year present;
on an empty summary no integer is produced. -/
theorem latest_year_max (summary : List SummaryRow) (h : summary ≠ []) :
    latest_year ([] : List SummaryRow) = none ∧
    ∃ m, latest_year summary = some m ∧ (∃ r ∈ summary, r.year = m) ∧
      ∀ r ∈ summary, r.year ≤ m := by
  refine ⟨rfl, ?_⟩
  have hne : summary.map (fun r => r.year) ≠ [] := by
    simpa using h
  cases hm : (summary.map (fun r => r.year)).max? with
  | none => exact absurd (List.max?_eq_none_iff.mp hm) hne
  | some m =>
      have hmem : m ∈ summary.map (fun r => r.year) :=
        List.max?_mem (fun a b => max_choice a b) hm
      have hle : ∀ b ∈ summary.map (fun r => r.year), b ≤ m := by
        letI : Std.Antisymm (fun (x1 x2 : Int) => x1 ≤ x2) :=
          ⟨fun h1 h2 => le_antisymm h1 h2⟩
        have := (List.max?_eq_some_iff (le_refl)
          (fun a b => max_choice a b) (fun a b c => max_le_iff)).mp hm
        exact this.2
      obtain ⟨r, hr, hry⟩ := List.mem_map.mp hmem
      refine ⟨m, hm, ⟨r, hr, hry⟩, ?_⟩
      intro r2 hr2
      exact hle _ (List.mem_map.mpr ⟨r2, hr2, rfl⟩)

/-- A concrete two-row metro-year summary. -/
def summaryTwoYears : List SummaryRow :=
  [{ city_full := "A", year := 2012, price_to_income := .num 4,
     rent_to_income := .num 1, affordability_rating := some .moderately },
   { city_full := "A", year := 2013, price_to_income := .num 5,
     rent_to_income := .num 1, affordability_rating := some .seriously }]

/-- Witness for C10 at `summaryTwoYears`. -/
theorem latest_year_max_witness :
    latest_year ([] : List SummaryRow) = none ∧
    ∃ m, latest_year summaryTwoYears = some m ∧
      (∃ r ∈ summaryTwoYears, r.year = m) ∧
      ∀ r ∈ summaryTwoYears, r.year ≤ m :=
  latest_year_max summaryTwoYears (by decide)

/-- C8: the Classifier is total on non-null ratios and monotone with respect
to the five-band order. -/
theorem classify_total_monotone (r1 r2 : ℚ) (h : r1 < r2) :
    ∃ b1 b2, classify_affordability (.num r1) = some b1 ∧
      classify_affordability (.num r2) = some b2 ∧ b1.rank ≤ b2.rank := by
  simp only [classify_affordability, PFloat.isna, PFloat.le, Bool.false_eq_true,
    if_false, decide_eq_true_eq]
  split_ifs
  all_goals try (exfalso; linarith)
  all_goals exact ⟨_, _, rfl, rfl, by norm_num [Band.rank]⟩

/-- Witness for C8 at the concrete pair (2, 10). -/
theorem classify_total_monotone_witness :
    ∃ b1 b2, classify_affordability (.num 2) = some b1 ∧
      classify_affordability (.num 10) = some b2 ∧ b1.rank ≤ b2.rank :=
  classify_total_monotone 2 10 (by norm_num)

end HouseTS
